import Mathlib

/-!
Shallow embedding of the order-sizing webhook service (src/app.py).

Numbers are modelled as exact rationals (ℚ).  Python behaviour that raises an
exception is modelled explicitly: float division by zero in `round_step_size`
raises `ZeroDivisionError`, which the webhook's generic `except Exception`
handler turns into an HTTP 500; the embedding makes that branch explicit.
The three network calls the handler performs (symbol-info lookup, balance
read, order submission) are recorded in an event trace so that ordering
properties can be stated.
-/

/-- `truncate` (src/app.py lines 24-26): multiply by `10 ^ decimals`,
apply `math.floor`, divide back. -/
def truncate (number : ℚ) (decimals : ℕ) : ℚ :=
  (⌊number * 10 ^ decimals⌋ : ℚ) / 10 ^ decimals

/-- `round_step_size` (src/app.py lines 28-29): `floor(quantity / step_size) * step_size`.
For `step_size = 0` the Python original raises `ZeroDivisionError`; callers of this
embedding model that case separately (see `sellBranch`). -/
def round_step_size (quantity : ℚ) (step_size : ℚ) : ℚ :=
  (⌊quantity / step_size⌋ : ℚ) * step_size

/-- Round half to even (banker's rounding), the tie-breaking rule of Python's
built-in `round`. -/
def rhe (x : ℚ) : ℤ :=
  if x - ⌊x⌋ < 1 / 2 then ⌊x⌋
  else if 1 / 2 < x - ⌊x⌋ then ⌊x⌋ + 1
  else if ⌊x⌋ % 2 = 0 then ⌊x⌋ else ⌊x⌋ + 1

/-- Python's `round(x, n)` for `n ≥ 0` fractional digits, idealised over ℚ. -/
def pyRound (x : ℚ) (n : ℕ) : ℚ :=
  (rhe (x * 10 ^ n) : ℚ) / 10 ^ n

/-- Strip trailing decimal zeros from an `n`-digit block `f` and return how
many digits remain (`rstrip("0")` on the fractional part of the rendering). -/
def decCount : ℕ → ℤ → ℕ
  | 0, _ => 0
  | n + 1, f => if f % 10 = 0 then decCount n (f / 10) else n + 1

/-- Decimal-place derivation (src/app.py lines 113-114):
`step_str = f"{step_size:.10f}".rstrip("0")`, then the length of the fractional
part of `step_str` (0 if the fractional part was stripped away entirely).
The 10-fractional-digit rendering rounds half to even, hence `rhe (step * 10^10)`;
its fractional digit block is that integer mod `10^10`. -/
def decimalPlacesOf (step : ℚ) : ℕ :=
  decCount 10 (rhe (step * 10 ^ 10) % 10 ^ 10)

/-- The parsed JSON body of a webhook request; only the fields the handler
reads are modelled.  `none` = key absent. -/
structure Payload where
  token : Option String
  message : Option String
  action : Option String
deriving DecidableEq

/-- Python's `a or b` for an optional string `a`: first truthy wins, where
`None` and `""` are falsy. -/
def firstTruthy (a : Option String) (b : String) : String :=
  match a with
  | none => b
  | some s => if s = "" then b else s

/-- Drop leading whitespace characters from a character list. -/
def dropWS : List Char → List Char
  | [] => []
  | c :: cs => if c.isWhitespace then dropWS cs else c :: cs

/-- Python's `str.strip()`: remove leading and trailing whitespace. -/
def pyStrip (s : String) : String :=
  ⟨(dropWS ((dropWS s.data).reverse)).reverse⟩

/-- Python's `str.lower()` (ASCII case folding). -/
def pyLower (s : String) : String :=
  ⟨s.data.map Char.toLower⟩

/-- src/app.py line 74: `(body.get("message") or body.get("action") or "").strip().lower()`. -/
def actionText (p : Payload) : String :=
  pyLower (pyStrip (firstTruthy p.message (firstTruthy p.action "")))

/-- src/app.py lines 69-71: the token check fires only when `WEBHOOK_TOKEN` is
truthy (set and non-empty), and rejects when the body's token differs. -/
def tokenRejected (configured : Option String) (supplied : Option String) : Bool :=
  match configured with
  | none => false
  | some t => if t = "" then false else if supplied = some t then false else true

/-- src/app.py line 89: `min_notional is not None and quote_qty < min_notional`. -/
def minNotionalViolated (minNotional : Option ℚ) (quote_qty : ℚ) : Bool :=
  match minNotional with
  | none => false
  | some m => decide (quote_qty < m)

/-- The three values `get_symbol_filters` extracts for the trading pair
(src/app.py lines 31-50): step size and minimum quantity from the LOT_SIZE
filter, minimum notional from the MIN_NOTIONAL/NOTIONAL filter; each may be
absent. -/
structure Filters where
  stepSize : Option ℚ
  minQty : Option ℚ
  minNotional : Option ℚ
deriving DecidableEq

/-- Startup configuration (environment variables read once at module load). -/
structure Config where
  webhookToken : Option String
  symbol : String
  baseAsset : String
  quoteAsset : String
deriving DecidableEq

/-- The exchange as seen by one request: the symbol-info lookup result
(`none` = pair unknown) and the free balances the two balance reads return. -/
structure Exchange where
  symbolLookup : Option Filters
  quoteFree : ℚ
  baseFree : ℚ
deriving DecidableEq

/-- How the submitted market order is sized: buys by quote amount
(`quoteOrderQty=`), sells by base quantity (`quantity=`). -/
inductive OrderSpec
  | buyQuote (quoteOrderQty : ℚ)
  | sellQty (quantity : ℚ)
deriving DecidableEq

/-- One outbound exchange API call made by the handler, in program order. -/
inductive ExchangeCall
  | getSymbolInfo (symbol : String)
  | getBalance (asset : String)
  | createOrder (symbol : String) (spec : OrderSpec)
deriving DecidableEq

/-- The rejection classes the handler produces (each an HTTPException 400/401
with a distinct message in the source). -/
inductive WebhookError
  | invalidJson
  | unauthorized
  | unrecognizedAction
  | unknownPair
  | missingLotSize
  | insufficientBalance
  | insufficientQuantity
deriving DecidableEq

/-- The handler's result: success summary, a client-facing rejection, or an
HTTP 500 from an uncaught internal exception. -/
inductive Outcome
  | ok (action : String) (spec : OrderSpec)
  | clientError (e : WebhookError)
  | serverError
deriving DecidableEq

/-- True exactly on order-submission calls. -/
def isCreateOrder : ExchangeCall → Bool
  | .createOrder _ _ => true
  | _ => false

/-- Buy branch (src/app.py lines 81-102): read the quote balance, spend 98% of
it truncated to 2 decimals, check the known minimum notional and the hard
floor of 5, then submit a market buy sized by quote amount.  Returns the calls
this branch makes (the balance read, plus the order submission on success)
and the outcome. -/
def buyBranch (cfg : Config) (text : String) (minNotional : Option ℚ)
    (usdc_free : ℚ) : List ExchangeCall × Outcome :=
  let quote_qty := truncate (usdc_free * (98 / 100)) 2
  if minNotionalViolated minNotional quote_qty then
    ([.getBalance cfg.quoteAsset], .clientError .insufficientBalance)
  else if quote_qty < 5 then
    ([.getBalance cfg.quoteAsset], .clientError .insufficientBalance)
  else
    ([.getBalance cfg.quoteAsset, .createOrder cfg.symbol (.buyQuote quote_qty)],
     .ok text (.buyQuote quote_qty))

/-- Sell branch (src/app.py lines 104-128): require the LOT_SIZE filter, read
the base balance, step-round it, re-round to the step's decimal places, check
the minimum quantity, then submit a market sell sized by base quantity.
A present step size of 0 reaches `round_step_size`, whose division raises
`ZeroDivisionError` in the original; the generic exception handler
(src/app.py lines 146-147) turns that into an HTTP 500, modelled as
`Outcome.serverError`. -/
def sellBranch (cfg : Config) (text : String) (stepSize minQty : Option ℚ)
    (base_free : ℚ) : List ExchangeCall × Outcome :=
  match stepSize, minQty with
  | none, _ => ([], .clientError .missingLotSize)
  | some _, none => ([], .clientError .missingLotSize)
  | some s, some mq =>
    if s = 0 then ([.getBalance cfg.baseAsset], .serverError)
    else
      let qty := pyRound (round_step_size base_free s) (decimalPlacesOf s)
      if qty < mq then
        ([.getBalance cfg.baseAsset], .clientError .insufficientQuantity)
      else
        ([.getBalance cfg.baseAsset, .createOrder cfg.symbol (.sellQty qty)],
         .ok text (.sellQty qty))

/-- The webhook handler (src/app.py lines 61-147) as a pure function from the
configuration, the exchange's state, and the parsed body (`none` = the body
was not valid JSON) to the list of exchange calls made, in order, and the
outcome. -/
def webhook (cfg : Config) (ex : Exchange) (body : Option Payload) :
    List ExchangeCall × Outcome :=
  match body with
  | none => ([], .clientError .invalidJson)
  | some p =>
    if tokenRejected cfg.webhookToken p.token then
      ([], .clientError .unauthorized)
    else
      let text := actionText p
      if text = "buy" ∨ text = "sell" then
        match ex.symbolLookup with
        | none => ([.getSymbolInfo cfg.symbol], .clientError .unknownPair)
        | some f =>
          let branch :=
            if text = "buy" then buyBranch cfg text f.minNotional ex.quoteFree
            else sellBranch cfg text f.stepSize f.minQty ex.baseFree
          (.getSymbolInfo cfg.symbol :: branch.1, branch.2)
      else ([], .clientError .unrecognizedAction)


/-! ### Helper lemmas about the quantization utilities -/

theorem rhe_intCast (n : ℤ) : rhe (n : ℚ) = n := by
  simp [rhe]

theorem decCount_le (n : ℕ) (f : ℤ) : decCount n f ≤ n := by
  induction n generalizing f with
  | zero => simp [decCount]
  | succ n ih =>
    simp only [decCount]
    split
    · exact le_trans (ih _) (Nat.le_succ n)
    · exact le_refl _

theorem pow_sub_decCount_dvd (n : ℕ) (f : ℤ) : (10 : ℤ) ^ (n - decCount n f) ∣ f := by
  induction n generalizing f with
  | zero => simpa using one_dvd f
  | succ n ih =>
    by_cases h : f % 10 = 0
    · have hf : f = 10 * (f / 10) := by omega
      have hd : decCount (n + 1) f = decCount n (f / 10) := by simp [decCount, h]
      have hle : decCount n (f / 10) ≤ n := decCount_le n (f / 10)
      have hsub : n + 1 - decCount n (f / 10) = (n - decCount n (f / 10)) + 1 := by omega
      rw [hd, hsub, pow_succ]
      have : (10 : ℤ) ^ (n - decCount n (f / 10)) * 10 ∣ (f / 10) * 10 :=
        mul_dvd_mul_right (ih (f / 10)) 10
      have hf' : (f / 10) * 10 = f := by omega
      rwa [hf'] at this
    · simp [decCount, h]

/-- If `step` is exactly representable with 10 decimal digits, then multiplying
it by `10 ^ decimalPlacesOf step` lands on an integer: the stripped rendering
keeps every significant digit. -/
theorem step_pow_decimals_int (s : ℚ) (N : ℤ) (hN : s * 10 ^ 10 = (N : ℚ)) :
    ∃ M : ℤ, s * 10 ^ decimalPlacesOf s = (M : ℚ) := by
  have hdle : decimalPlacesOf s ≤ 10 := decCount_le _ _
  have hrhe : rhe (s * 10 ^ 10) = N := by rw [hN]; exact rhe_intCast N
  have hdvdF : (10 : ℤ) ^ (10 - decimalPlacesOf s) ∣ N % 10 ^ 10 := by
    have := pow_sub_decCount_dvd 10 (N % 10 ^ 10)
    simpa [decimalPlacesOf, hrhe] using this
  have hdvdN : (10 : ℤ) ^ (10 - decimalPlacesOf s) ∣ N := by
    have h1 : (10 : ℤ) ^ 10 * (N / 10 ^ 10) + N % 10 ^ 10 = N := Int.ediv_add_emod N (10 ^ 10)
    have h2 : (10 : ℤ) ^ (10 - decimalPlacesOf s) ∣ (10 : ℤ) ^ 10 :=
      pow_dvd_pow 10 (by omega)
    calc (10 : ℤ) ^ (10 - decimalPlacesOf s)
        ∣ (10 : ℤ) ^ 10 * (N / 10 ^ 10) + N % 10 ^ 10 :=
          dvd_add (h2.mul_right _) hdvdF
      _ = N := h1
  obtain ⟨M, hM⟩ := hdvdN
  refine ⟨M, ?_⟩
  have hsplit : s * 10 ^ 10 = (s * 10 ^ decimalPlacesOf s) * 10 ^ (10 - decimalPlacesOf s) := by
    rw [mul_assoc, ← pow_add]
    congr 2
    omega
  have hcan : (s * 10 ^ decimalPlacesOf s) * (10 : ℚ) ^ (10 - decimalPlacesOf s) =
      (M : ℚ) * (10 : ℚ) ^ (10 - decimalPlacesOf s) := by
    rw [← hsplit, hN, hM]
    push_cast
    ring
  exact mul_right_cancel₀ (by positivity) hcan

/-! ### Claims about the quantization utilities -/

/-- Claim C6: for every non-negative `x` and every `d ≥ 0`, `truncate x d`
never exceeds `x`, `truncate x d * 10 ^ d` is an integer, and the operation is
floor toward negative infinity (multiply by `10 ^ d`, floor, divide back),
never round-to-nearest. -/
theorem truncate_floor_spec (x : ℚ) (d : ℕ) (hx : 0 ≤ x) :
    truncate x d ≤ x ∧ (∃ k : ℤ, truncate x d * 10 ^ d = (k : ℚ)) ∧
      truncate x d = (⌊x * 10 ^ d⌋ : ℚ) / 10 ^ d := by
  refine ⟨?_, ⟨⌊x * 10 ^ d⌋, ?_⟩, rfl⟩
  · unfold truncate
    rw [div_le_iff (by positivity : (0 : ℚ) < 10 ^ d)]
    exact Int.floor_le _
  · unfold truncate
    field_simp

/-- Witness for C6 at `x = 4 * 0.98`, `d = 2`. -/
theorem truncate_floor_spec_witness :
    (0 : ℚ) ≤ 4 * (98 / 100) ∧ truncate (4 * (98 / 100)) 2 ≤ 4 * (98 / 100) ∧
      (∃ k : ℤ, truncate (4 * (98 / 100)) 2 * 10 ^ 2 = (k : ℚ)) := by
  have h := truncate_floor_spec (4 * (98 / 100)) 2 (by norm_num)
  exact ⟨by norm_num, h.1, h.2.1⟩

/-- Claim C7: for every quantity `q` and step `s > 0`, `round_step_size q s`
equals `floor (q / s) * s`, is an integer multiple of `s`, and never
exceeds `q`. -/
theorem round_step_size_spec (q s : ℚ) (hs : 0 < s) :
    round_step_size q s = (⌊q / s⌋ : ℚ) * s ∧
      (∃ k : ℤ, round_step_size q s = (k : ℚ) * s) ∧ round_step_size q s ≤ q := by
  refine ⟨rfl, ⟨⌊q / s⌋, rfl⟩, ?_⟩
  unfold round_step_size
  calc (⌊q / s⌋ : ℚ) * s ≤ (q / s) * s :=
        mul_le_mul_of_nonneg_right (Int.floor_le _) (le_of_lt hs)
    _ = q := div_mul_cancel₀ q (ne_of_gt hs)

/-- Witness for C7 at `q = 1.23456`, `s = 0.01`. -/
theorem round_step_size_spec_witness :
    (0 : ℚ) < 1 / 100 ∧ round_step_size (123456 / 100000) (1 / 100) ≤ 123456 / 100000 ∧
      (∃ k : ℤ, round_step_size (123456 / 100000) (1 / 100) = (k : ℚ) * (1 / 100)) := by
  have h := round_step_size_spec (123456 / 100000) (1 / 100) (by norm_num)
  exact ⟨by norm_num, h.2.2, h.2.1⟩

/-- Claim C5: for every base balance `Q` and every valid step size `s`
(positive and exactly representable in the 10-digit rendering the code uses),
the cleanup re-rounding of the stepped quantity to `decimalPlacesOf s`
fractional digits returns exactly the value `round_step_size` produced: in
exact arithmetic the increase is zero, so it never exceeds it. -/
theorem cleanup_rounding_no_increase (Q s : ℚ) (hs : 0 < s)
    (hrep : ∃ N : ℤ, s * 10 ^ 10 = (N : ℚ)) :
    pyRound (round_step_size Q s) (decimalPlacesOf s) = round_step_size Q s := by
  obtain ⟨N, hN⟩ := hrep
  obtain ⟨M, hM⟩ := step_pow_decimals_int s N hN
  have key : round_step_size Q s * 10 ^ decimalPlacesOf s = ((⌊Q / s⌋ * M : ℤ) : ℚ) := by
    unfold round_step_size
    push_cast
    rw [mul_assoc, hM]
  unfold pyRound
  rw [key, rhe_intCast, ← key]
  exact mul_div_cancel_right₀ _ (by positivity)

/-- Witness for C5 at `Q = 1.23456`, `s = 0.01` (the spec's own example). -/
theorem cleanup_rounding_no_increase_witness :
    (0 : ℚ) < 1 / 100 ∧
      pyRound (round_step_size (123456 / 100000) (1 / 100)) (decimalPlacesOf (1 / 100)) =
        round_step_size (123456 / 100000) (1 / 100) := by
  refine ⟨by norm_num, ?_⟩
  exact cleanup_rounding_no_increase (123456 / 100000) (1 / 100) (by norm_num)
    ⟨100000000, by norm_num⟩

/-- Claim C10 (counterexample): `0.000000000075` is a positive step size
smaller than `10 ^ (-10)`, yet `decimalPlacesOf` returns 10, not 0: the
10-digit rendering rounds the step up to `0.0000000001`. -/
theorem decimalPlacesOf_small_step_cex :
    (0 : ℚ) < 3 / 40000000000 ∧ (3 / 40000000000 : ℚ) < 1 / 10 ^ 10 ∧
      decimalPlacesOf (3 / 40000000000) ≠ 0 := by
  refine ⟨by norm_num, by norm_num, ?_⟩
  norm_num [decimalPlacesOf, rhe, decCount]

/-- Claim C10 (amended): `decimalPlacesOf` always returns a value between 0
and 10 inclusive for positive steps, and a step of at most `5 * 10 ^ (-11)`
(one whose 10-digit fixed rendering is all zeros) yields 0 decimal places. -/
theorem decimalPlacesOf_range (s : ℚ) (hs : 0 < s) :
    decimalPlacesOf s ≤ 10 ∧ (s ≤ 5 / 10 ^ 11 → decimalPlacesOf s = 0) := by
  refine ⟨decCount_le _ _, fun hsmall => ?_⟩
  have hub : s * 10 ^ 10 ≤ 1 / 2 := by
    have := mul_le_mul_of_nonneg_right hsmall (by positivity : (0 : ℚ) ≤ 10 ^ 10)
    calc s * 10 ^ 10 ≤ 5 / 10 ^ 11 * 10 ^ 10 := this
      _ = 1 / 2 := by norm_num
  have hfl : ⌊s * 10 ^ 10⌋ = 0 := by
    rw [Int.floor_eq_zero_iff]
    constructor
    · positivity
    · calc s * 10 ^ 10 ≤ 1 / 2 := hub
        _ < 1 := by norm_num
  have h0 : rhe (s * 10 ^ 10) = 0 := by
    unfold rhe
    rw [hfl]
    rcases lt_or_eq_of_le hub with hlt | heq
    · rw [if_pos]
      push_cast
      linarith
    · rw [if_neg, if_neg, if_pos]
      · decide
      · push_cast
        rw [heq]
        norm_num
      · push_cast
        rw [heq]
        norm_num
  unfold decimalPlacesOf
  rw [h0]
  norm_num [decCount]

/-- Witness for the amended C10 at `s = 0.000000000025`. -/
theorem decimalPlacesOf_range_witness :
    (0 : ℚ) < 1 / 40000000000 ∧ decimalPlacesOf (1 / 40000000000) ≤ 10 ∧
      decimalPlacesOf (1 / 40000000000) = 0 := by
  have h := decimalPlacesOf_range (1 / 40000000000) (by norm_num)
  exact ⟨by norm_num, h.1, h.2 (by norm_num)⟩

/-! ### Structural lemmas about the webhook control flow -/

theorem webhook_unauthorized_eq (cfg : Config) (ex : Exchange) (p : Payload)
    (htok : tokenRejected cfg.webhookToken p.token = true) :
    webhook cfg ex (some p) = ([], .clientError .unauthorized) := by
  simp [webhook, htok]

theorem webhook_unrecognized_eq (cfg : Config) (ex : Exchange) (p : Payload)
    (htok : tokenRejected cfg.webhookToken p.token = false)
    (hact : ¬(actionText p = "buy" ∨ actionText p = "sell")) :
    webhook cfg ex (some p) = ([], .clientError .unrecognizedAction) := by
  simp [webhook, htok, hact]

theorem webhook_shape (cfg : Config) (ex : Exchange) (p : Payload)
    (htok : tokenRejected cfg.webhookToken p.token = false)
    (hact : actionText p = "buy" ∨ actionText p = "sell") :
    (ex.symbolLookup = none ∧
      webhook cfg ex (some p) = ([.getSymbolInfo cfg.symbol], .clientError .unknownPair)) ∨
    (∃ f, ex.symbolLookup = some f ∧
      webhook cfg ex (some p) =
        (.getSymbolInfo cfg.symbol ::
          (if actionText p = "buy" then buyBranch cfg (actionText p) f.minNotional ex.quoteFree
           else sellBranch cfg (actionText p) f.stepSize f.minQty ex.baseFree).1,
         (if actionText p = "buy" then buyBranch cfg (actionText p) f.minNotional ex.quoteFree
          else sellBranch cfg (actionText p) f.stepSize f.minQty ex.baseFree).2)) := by
  rcases hsym : ex.symbolLookup with _ | f
  · exact Or.inl ⟨rfl, by simp [webhook, htok, hact, hsym]⟩
  · exact Or.inr ⟨f, rfl, by simp [webhook, htok, hact, hsym]⟩

theorem webhook_buy_eq (cfg : Config) (ex : Exchange) (p : Payload) (f : Filters)
    (htok : tokenRejected cfg.webhookToken p.token = false)
    (hact : actionText p = "buy")
    (hsym : ex.symbolLookup = some f) :
    webhook cfg ex (some p) =
      (.getSymbolInfo cfg.symbol :: (buyBranch cfg "buy" f.minNotional ex.quoteFree).1,
       (buyBranch cfg "buy" f.minNotional ex.quoteFree).2) := by
  simp [webhook, htok, hact, hsym]

theorem webhook_sell_eq (cfg : Config) (ex : Exchange) (p : Payload) (f : Filters)
    (htok : tokenRejected cfg.webhookToken p.token = false)
    (hact : actionText p = "sell")
    (hsym : ex.symbolLookup = some f) :
    webhook cfg ex (some p) =
      (.getSymbolInfo cfg.symbol ::
        (sellBranch cfg "sell" f.stepSize f.minQty ex.baseFree).1,
       (sellBranch cfg "sell" f.stepSize f.minQty ex.baseFree).2) := by
  simp [webhook, htok, hact, hsym]

theorem webhook_action_congr (cfg : Config) (ex : Exchange) (p₁ p₂ : Payload)
    (ht : p₁.token = p₂.token) (ha : actionText p₁ = actionText p₂) :
    webhook cfg ex (some p₁) = webhook cfg ex (some p₂) := by
  simp only [webhook, ht, ha]

theorem buyBranch_cases (cfg : Config) (text : String) (mn : Option ℚ) (free : ℚ) :
    buyBranch cfg text mn free =
        ([.getBalance cfg.quoteAsset], .clientError .insufficientBalance) ∨
    ∃ q, buyBranch cfg text mn free =
        ([.getBalance cfg.quoteAsset, .createOrder cfg.symbol (.buyQuote q)],
         .ok text (.buyQuote q)) := by
  simp only [buyBranch]
  split_ifs
  · exact Or.inl rfl
  · exact Or.inl rfl
  · exact Or.inr ⟨_, rfl⟩

theorem sellBranch_cases (cfg : Config) (text : String) (st mq : Option ℚ) (free : ℚ) :
    sellBranch cfg text st mq free = ([], .clientError .missingLotSize) ∨
    sellBranch cfg text st mq free = ([.getBalance cfg.baseAsset], .serverError) ∨
    sellBranch cfg text st mq free =
        ([.getBalance cfg.baseAsset], .clientError .insufficientQuantity) ∨
    ∃ q, sellBranch cfg text st mq free =
        ([.getBalance cfg.baseAsset, .createOrder cfg.symbol (.sellQty q)],
         .ok text (.sellQty q)) := by
  rcases st with _ | s
  · exact Or.inl rfl
  · rcases mq with _ | m
    · exact Or.inl rfl
    · simp only [sellBranch]
      split_ifs
      · exact Or.inr (Or.inl rfl)
      · exact Or.inr (Or.inr (Or.inl rfl))
      · exact Or.inr (Or.inr (Or.inr ⟨_, rfl⟩))

theorem webhook_known_action_outcomes (cfg : Config) (ex : Exchange) (p : Payload)
    (htok : tokenRejected cfg.webhookToken p.token = false)
    (hact : actionText p = "buy" ∨ actionText p = "sell") :
    (webhook cfg ex (some p)).2 ≠ .clientError .unauthorized ∧
    (webhook cfg ex (some p)).2 ≠ .clientError .unrecognizedAction := by
  rcases webhook_shape cfg ex p htok hact with ⟨_, hw⟩ | ⟨f, _, hw⟩
  · rw [hw]
    exact ⟨by simp, by simp⟩
  · rw [hw]
    by_cases hb : actionText p = "buy"
    · rw [if_pos hb]
      rcases buyBranch_cases cfg (actionText p) f.minNotional ex.quoteFree with h | ⟨q, h⟩ <;>
        rw [h] <;> exact ⟨by simp, by simp⟩
    · rw [if_neg hb]
      rcases sellBranch_cases cfg (actionText p) f.stepSize f.minQty ex.baseFree with
        h | h | h | ⟨q, h⟩ <;> rw [h] <;> exact ⟨by simp, by simp⟩

/-! ### Claims about the webhook state machine -/

/-- Claim C1: for every buy signal with available quote balance `B`, the
candidate spend is `truncate (B * 0.98) 2`; the request fails with the
insufficient-balance rejection if the minimum notional is known and the spend
is below it, fails likewise if the spend is below the hard floor 5, and
otherwise exactly one market buy order sized by that quote amount is
submitted. -/
theorem buy_signal_spec (cfg : Config) (ex : Exchange) (p : Payload) (f : Filters)
    (htok : tokenRejected cfg.webhookToken p.token = false)
    (hact : actionText p = "buy")
    (hsym : ex.symbolLookup = some f) :
    ((∃ m, f.minNotional = some m ∧ truncate (ex.quoteFree * (98 / 100)) 2 < m) →
        (webhook cfg ex (some p)).2 = .clientError .insufficientBalance) ∧
    ((∀ m, f.minNotional = some m → ¬truncate (ex.quoteFree * (98 / 100)) 2 < m) →
        truncate (ex.quoteFree * (98 / 100)) 2 < 5 →
        (webhook cfg ex (some p)).2 = .clientError .insufficientBalance) ∧
    ((∀ m, f.minNotional = some m → ¬truncate (ex.quoteFree * (98 / 100)) 2 < m) →
        ¬truncate (ex.quoteFree * (98 / 100)) 2 < 5 →
        (webhook cfg ex (some p)).2 =
            .ok "buy" (.buyQuote (truncate (ex.quoteFree * (98 / 100)) 2)) ∧
          (webhook cfg ex (some p)).1.filter isCreateOrder =
            [.createOrder cfg.symbol (.buyQuote (truncate (ex.quoteFree * (98 / 100)) 2))]) := by
  rw [webhook_buy_eq cfg ex p f htok hact hsym]
  refine ⟨?_, ?_, ?_⟩
  · rintro ⟨m, hm, hlt⟩
    simp [buyBranch, minNotionalViolated, hm, hlt]
  · intro hno h5
    have hmnv : minNotionalViolated f.minNotional (truncate (ex.quoteFree * (98 / 100)) 2) =
        false := by
      rcases hmn : f.minNotional with _ | m
      · rfl
      · simp [minNotionalViolated, hno m hmn]
    simp [buyBranch, hmnv, h5]
  · intro hno h5
    have hmnv : minNotionalViolated f.minNotional (truncate (ex.quoteFree * (98 / 100)) 2) =
        false := by
      rcases hmn : f.minNotional with _ | m
      · rfl
      · simp [minNotionalViolated, hno m hmn]
    simp [buyBranch, hmnv, h5, isCreateOrder]

/-- Witness for C1: balance 100, no minimum notional; the engine accepts and
buys with quote amount 98. -/
theorem buy_signal_spec_witness :
    (webhook ⟨none, "ETHUSDC", "ETH", "USDC"⟩
        ⟨some ⟨some (1 / 100), some (1 / 100), none⟩, 100, 0⟩
        (some ⟨none, some "buy", none⟩)).2 = .ok "buy" (.buyQuote 98) := by
  have h98 : truncate ((100 : ℚ) * (98 / 100)) 2 = 98 := by norm_num [truncate]
  have h := (buy_signal_spec ⟨none, "ETHUSDC", "ETH", "USDC"⟩
      ⟨some ⟨some (1 / 100), some (1 / 100), none⟩, 100, 0⟩
      ⟨none, some "buy", none⟩ ⟨some (1 / 100), some (1 / 100), none⟩
      rfl (by decide) rfl).2.2
      (fun m hm => Option.noConfusion hm) (by rw [h98]; norm_num)
  have h1 : (webhook ⟨none, "ETHUSDC", "ETH", "USDC"⟩
      ⟨some ⟨some (1 / 100), some (1 / 100), none⟩, 100, 0⟩
      (some ⟨none, some "buy", none⟩)).2 =
        .ok "buy" (.buyQuote (truncate ((100 : ℚ) * (98 / 100)) 2)) := h.1
  rw [h98] at h1
  exact h1

/-- Claim C2: for every sell signal, a missing step size or minimum quantity
fails with the missing-lot-size rejection; otherwise (for a valid nonzero
step) the base balance is step-rounded, re-rounded to the step's decimal
places, rejected if below the minimum quantity, and otherwise exactly one
market sell order sized by that base quantity is submitted. -/
theorem sell_signal_spec (cfg : Config) (ex : Exchange) (p : Payload) (f : Filters)
    (htok : tokenRejected cfg.webhookToken p.token = false)
    (hact : actionText p = "sell")
    (hsym : ex.symbolLookup = some f) :
    ((f.stepSize = none ∨ f.minQty = none) →
        (webhook cfg ex (some p)).2 = .clientError .missingLotSize) ∧
    (∀ s mq, f.stepSize = some s → f.minQty = some mq → s ≠ 0 →
      (pyRound (round_step_size ex.baseFree s) (decimalPlacesOf s) < mq →
          (webhook cfg ex (some p)).2 = .clientError .insufficientQuantity) ∧
      (¬pyRound (round_step_size ex.baseFree s) (decimalPlacesOf s) < mq →
          (webhook cfg ex (some p)).2 =
              .ok "sell"
                (.sellQty (pyRound (round_step_size ex.baseFree s) (decimalPlacesOf s))) ∧
            (webhook cfg ex (some p)).1.filter isCreateOrder =
              [.createOrder cfg.symbol
                (.sellQty (pyRound (round_step_size ex.baseFree s) (decimalPlacesOf s)))])) := by
  rw [webhook_sell_eq cfg ex p f htok hact hsym]
  constructor
  · rintro (h | h)
    · rw [h]
      rfl
    · rw [h]
      rcases f.stepSize with _ | s <;> rfl
  · rintro s mq hst hmq hs0
    rw [hst, hmq]
    constructor
    · intro hlt
      simp [sellBranch, hs0, hlt]
    · intro hge
      simp [sellBranch, hs0, hge, isCreateOrder]

/-- Witness for C2: base balance 1.23456, step 0.01, min quantity 0.01; the
engine accepts and sells quantity 1.23. -/
theorem sell_signal_spec_witness :
    (webhook ⟨none, "ETHUSDC", "ETH", "USDC"⟩
        ⟨some ⟨some (1 / 100), some (1 / 100), none⟩, 0, 123456 / 100000⟩
        (some ⟨none, some "sell", none⟩)).2 = .ok "sell" (.sellQty (123 / 100)) := by
  have hq : pyRound (round_step_size ((123456 : ℚ) / 100000) (1 / 100))
      (decimalPlacesOf ((1 : ℚ) / 100)) = 123 / 100 := by
    have h1 : round_step_size ((123456 : ℚ) / 100000) (1 / 100) = 123 / 100 := by
      norm_num [round_step_size]
    have h2 : decimalPlacesOf ((1 : ℚ) / 100) = 2 := by
      norm_num [decimalPlacesOf, rhe, decCount]
    rw [h1, h2]
    norm_num [pyRound, rhe]
  have hge : ¬pyRound (round_step_size ((123456 : ℚ) / 100000) (1 / 100))
      (decimalPlacesOf ((1 : ℚ) / 100)) < 1 / 100 := by
    rw [hq]
    norm_num
  have h := ((sell_signal_spec ⟨none, "ETHUSDC", "ETH", "USDC"⟩
      ⟨some ⟨some (1 / 100), some (1 / 100), none⟩, 0, 123456 / 100000⟩
      ⟨none, some "sell", none⟩ ⟨some (1 / 100), some (1 / 100), none⟩
      rfl (by decide) rfl).2 (1 / 100) (1 / 100) rfl rfl (by norm_num)).2 hge
  have h1 : (webhook ⟨none, "ETHUSDC", "ETH", "USDC"⟩
      ⟨some ⟨some (1 / 100), some (1 / 100), none⟩, 0, 123456 / 100000⟩
      (some ⟨none, some "sell", none⟩)).2 =
        .ok "sell" (.sellQty (pyRound (round_step_size ((123456 : ℚ) / 100000) (1 / 100))
          (decimalPlacesOf ((1 : ℚ) / 100)))) := h.1
  rw [hq] at h1
  exact h1

/-- Claim C3 (code behaviour at the failing input): a sell signal with a
present step size of 0 and a present minimum quantity is NOT rejected as
invalid input before quantity computation; the handler reads the base balance
and then attempts `quantity / 0` inside `round_step_size`, which raises
`ZeroDivisionError` and surfaces as an HTTP 500 server error. -/
theorem sell_zero_step_server_error :
    webhook ⟨none, "ETHUSDC", "ETH", "USDC"⟩
        ⟨some ⟨some 0, some (1 / 100), none⟩, 0, 1⟩ (some ⟨none, some "sell", none⟩) =
      ([.getSymbolInfo "ETHUSDC", .getBalance "ETH"], .serverError) := by
  rw [webhook_sell_eq ⟨none, "ETHUSDC", "ETH", "USDC"⟩
      ⟨some ⟨some 0, some (1 / 100), none⟩, 0, 1⟩ ⟨none, some "sell", none⟩
      ⟨some 0, some (1 / 100), none⟩ rfl (by decide) rfl]
  simp [sellBranch]

/-- Claim C4: every rejection outcome is produced without any order-submission
call appearing in the trace, and the unauthorized and unrecognized-action
rejections are produced with an empty trace (before any exchange call at
all). -/
theorem rejection_before_submission (cfg : Config) (ex : Exchange) (body : Option Payload) :
    (∀ e, (webhook cfg ex body).2 = .clientError e →
        (webhook cfg ex body).1.filter isCreateOrder = []) ∧
    ((webhook cfg ex body).2 = .clientError .unauthorized ∨
        (webhook cfg ex body).2 = .clientError .unrecognizedAction →
      (webhook cfg ex body).1 = []) := by
  rcases body with _ | p
  · exact ⟨fun e _ => rfl, fun _ => rfl⟩
  · by_cases htok : tokenRejected cfg.webhookToken p.token = true
    · rw [webhook_unauthorized_eq cfg ex p htok]
      exact ⟨fun e _ => rfl, fun _ => rfl⟩
    · have htok' : tokenRejected cfg.webhookToken p.token = false := by
        simpa using htok
      by_cases hact : actionText p = "buy" ∨ actionText p = "sell"
      · constructor
        · intro e he
          rcases webhook_shape cfg ex p htok' hact with ⟨_, hw⟩ | ⟨f, _, hw⟩
          · rw [hw]
            simp [isCreateOrder]
          · rw [hw] at he ⊢
            by_cases hb : actionText p = "buy"
            · rw [if_pos hb] at he ⊢
              rcases buyBranch_cases cfg (actionText p) f.minNotional ex.quoteFree with
                h | ⟨q, h⟩ <;> rw [h] at he ⊢
              · simp [isCreateOrder]
              · simp at he
            · rw [if_neg hb] at he ⊢
              rcases sellBranch_cases cfg (actionText p) f.stepSize f.minQty ex.baseFree with
                h | h | h | ⟨q, h⟩ <;> rw [h] at he ⊢
              · rfl
              · simp at he
              · simp [isCreateOrder]
              · simp at he
        · intro h
          exfalso
          have ho := webhook_known_action_outcomes cfg ex p htok' hact
          rcases h with h | h
          · exact ho.1 h
          · exact ho.2 h
      · rw [webhook_unrecognized_eq cfg ex p htok' hact]
        exact ⟨fun e _ => rfl, fun _ => rfl⟩

/-- Witness for C4: a configured token and a payload without one is rejected
with an empty call trace. -/
theorem rejection_before_submission_witness :
    (webhook ⟨some "secret", "ETHUSDC", "ETH", "USDC"⟩ ⟨none, 0, 0⟩
        (some ⟨none, some "buy", none⟩)).1 = [] := by
  exact (rejection_before_submission ⟨some "secret", "ETHUSDC", "ETH", "USDC"⟩ ⟨none, 0, 0⟩
      (some ⟨none, some "buy", none⟩)).2 (Or.inl (by decide))

/-- Claim C8: after taking the first present-and-non-empty of the accepted
payload fields, stripping surrounding whitespace and lowercasing, the request
gets past the action check if and only if the normalized text is exactly
"buy" or "sell" (otherwise it fails with the unrecognized-action rejection);
and a whitespace-padded mixed-case "BUY" in the action field is handled
identically to a plain "buy". -/
theorem action_normalization (cfg : Config) (ex : Exchange) (p : Payload)
    (htok : tokenRejected cfg.webhookToken p.token = false) :
    ((webhook cfg ex (some p)).2 = .clientError .unrecognizedAction ↔
        ¬(actionText p = "buy" ∨ actionText p = "sell")) ∧
    ∀ t, webhook cfg ex (some ⟨t, none, some "  BUY  "⟩) =
        webhook cfg ex (some ⟨t, none, some "buy"⟩) := by
  constructor
  · constructor
    · intro h hact
      exact (webhook_known_action_outcomes cfg ex p htok hact).2 h
    · intro hact
      rw [webhook_unrecognized_eq cfg ex p htok hact]
  · intro t
    exact webhook_action_congr cfg ex ⟨t, none, some "  BUY  "⟩ ⟨t, none, some "buy"⟩
      rfl (by dsimp only [actionText]; decide)

/-- Witness for C8: a "hold" action is rejected as unrecognized. -/
theorem action_normalization_witness :
    (webhook ⟨none, "ETHUSDC", "ETH", "USDC"⟩ ⟨none, 0, 0⟩
        (some ⟨none, some "hold", none⟩)).2 = .clientError .unrecognizedAction := by
  exact (action_normalization ⟨none, "ETHUSDC", "ETH", "USDC"⟩ ⟨none, 0, 0⟩
      ⟨none, some "hold", none⟩ rfl).1.mpr (by decide)

/-- Claim C9: when no authorization token is configured (the environment
variable is unset, or set to the empty string, which Python treats as falsy),
the webhook's result is independent of the payload's token field, and the
unauthorized rejection is never produced. -/
theorem token_ignored_when_unconfigured (cfg : Config) (ex : Exchange) (p : Payload)
    (t₁ t₂ : Option String)
    (hcfg : cfg.webhookToken = none ∨ cfg.webhookToken = some "") :
    webhook cfg ex (some { p with token := t₁ }) =
        webhook cfg ex (some { p with token := t₂ }) ∧
    ∀ body, (webhook cfg ex body).2 ≠ .clientError .unauthorized := by
  have htr : ∀ t, tokenRejected cfg.webhookToken t = false := by
    intro t
    rcases hcfg with h | h <;> simp [tokenRejected, h]
  constructor
  · have ha : ∀ t : Option String, actionText { p with token := t } = actionText p :=
      fun _ => rfl
    rcases hcfg with h | h <;> simp [webhook, tokenRejected, h, ha]
  · intro body
    rcases body with _ | q
    · simp [webhook]
    · by_cases hact : actionText q = "buy" ∨ actionText q = "sell"
      · exact (webhook_known_action_outcomes cfg ex q (htr q.token) hact).1
      · rw [webhook_unrecognized_eq cfg ex q (htr q.token) hact]
        simp

/-- Witness for C9: with no token configured, a request carrying a token and
one omitting it produce the same result. -/
theorem token_ignored_when_unconfigured_witness :
    webhook ⟨none, "ETHUSDC", "ETH", "USDC"⟩
        ⟨some ⟨some (1 / 100), some (1 / 100), none⟩, 100, 0⟩
        (some ⟨some "guess", some "buy", none⟩) =
      webhook ⟨none, "ETHUSDC", "ETH", "USDC"⟩
        ⟨some ⟨some (1 / 100), some (1 / 100), none⟩, 100, 0⟩
        (some ⟨none, some "buy", none⟩) := by
  exact (token_ignored_when_unconfigured ⟨none, "ETHUSDC", "ETH", "USDC"⟩
      ⟨some ⟨some (1 / 100), some (1 / 100), none⟩, 100, 0⟩
      ⟨none, some "buy", none⟩ (some "guess") none (Or.inl rfl)).1
